import Mathlib

/-!
Verification of the `codeswitch` repository (`src/app.py`), a Streamlit
single-page "code converter" UI.  Python strings are modelled as Lean
`String` (a wrapper around `List Char`, matching Python's sequence of
code points); the mutable `st.session_state` dict is modelled as an
explicit `AppState` record, and each UI handler becomes a pure state
transition.
-/

namespace Codeswitch

/-- Whitespace characters as classified by Python's `str.strip` /
`str.isspace`: the full 29-character set (ASCII whitespace, the C1
separators FS/GS/RS/US, NEL, NBSP, Ogham space mark, the U+2000 block
of Unicode spaces, line and paragraph separators, narrow no-break
space, medium mathematical space and ideographic space). -/
def isPySpace (c : Char) : Bool :=
  c = ' ' || c = '\t' || c = '\n' || c = '\r' || c = '\x0b' || c = '\x0c' ||
  c = '\x1c' || c = '\x1d' || c = '\x1e' || c = '\x1f' || c = '\x85' ||
  c = '\xa0' || c = '\u1680' || c = '\u2000' || c = '\u2001' || c = '\u2002' ||
  c = '\u2003' || c = '\u2004' || c = '\u2005' || c = '\u2006' || c = '\u2007' ||
  c = '\u2008' || c = '\u2009' || c = '\u200a' || c = '\u2028' || c = '\u2029' ||
  c = '\u202f' || c = '\u205f' || c = '\u3000'

/-- Line-terminator characters recognised by Python's `str.splitlines`
(besides the two-character sequence CR LF, handled separately). -/
def isPyLineBreak (c : Char) : Bool :=
  c = '\n' || c = '\r' || c = '\x0b' || c = '\x0c' ||
  c = '\x1c' || c = '\x1d' || c = '\x1e' || c = '\x85' ||
  c = ' ' || c = ' '

/-- Python `str.strip()` on a list of code points. -/
def pyStripList (l : List Char) : List Char :=
  ((l.dropWhile isPySpace).reverse.dropWhile isPySpace).reverse

/-- Python `str.strip()`. -/
def pyStrip (s : String) : String := ⟨pyStripList s.data⟩

/-- Python `str.rstrip()`. -/
def pyRStrip (s : String) : String := ⟨(s.data.reverse.dropWhile isPySpace).reverse⟩

/-- Worker for `str.splitlines(keepends=True)`: `acc` holds the
(reversed) characters of the line currently being scanned. -/
def splitlinesAux : List Char → List Char → List (List Char)
  | [], acc => if acc.isEmpty then [] else [acc.reverse]
  | c :: rest, acc =>
    if c = '\r' then
      match rest with
      | [] => [acc.reverse ++ [c]]
      | c2 :: rest2 =>
        if c2 = '\n' then (acc.reverse ++ [c, c2]) :: splitlinesAux rest2 []
        else (acc.reverse ++ [c]) :: splitlinesAux (c2 :: rest2) []
    else if isPyLineBreak c then (acc.reverse ++ [c]) :: splitlinesAux rest []
    else splitlinesAux rest (c :: acc)

/-- Python `str.splitlines(keepends=True)`: the lines of the text, each
keeping its terminator. -/
def splitlinesKeepends (l : List Char) : List (List Char) := splitlinesAux l []

/-- One line of `textwrap.indent`'s output: the prefix `tok` is added
exactly when the line has a non-whitespace character (the default
predicate `line.strip()`). -/
def emitLine (tok : List Char) (line : List Char) : List Char :=
  if (pyStripList line).isEmpty then line else tok ++ line

/-- Python `textwrap.indent(text, tok)` with the default predicate. -/
def pyIndent (tok : String) (text : String) : String :=
  ⟨((splitlinesKeepends text.data).map (emitLine tok.data)).flatten⟩

/-- The `comment_prefix` lookup of `convert_code_placeholder`
(`src/app.py:57-62`): a dict keyed by target language, defaulting to
`"// "`. -/
def commentTok (to_lang : String) : String :=
  if to_lang = "Python" then "# "
  else if to_lang = "Java" then "// "
  else if to_lang = "C++" then "// "
  else if to_lang = "JavaScript" then "// "
  else "// "

/-- The `banner` local of `convert_code_placeholder` (`src/app.py:56`). -/
def banner (from_lang to_lang : String) : String :=
  "// Conversion from " ++ from_lang ++ " to " ++ to_lang ++ " completed!\n"

/-- The `prompt_block` local of `convert_code_placeholder`
(`src/app.py:63-65`): emitted only when the stripped prompt is non-empty. -/
def prompt_block (tok p : String) : String :=
  if pyStrip p ≠ "" then tok ++ "Prompt: " ++ pyStrip p ++ "\n" else ""

/-- The `note` local of `convert_code_placeholder` (`src/app.py:66-68`). -/
def note (tok : String) : String :=
  tok ++ "This is a placeholder. Replace with real conversion output.\n\n"

/-- The `original_header` local of `convert_code_placeholder`
(`src/app.py:69`). -/
def original_header (tok from_lang : String) : String :=
  tok ++ "Original " ++ from_lang ++ " code below for reference:\n"

/-- `convert_code_placeholder` (`src/app.py:55-71`). -/
def convert_code_placeholder (from_lang to_lang p code : String) : String :=
  banner from_lang to_lang ++
  prompt_block (commentTok to_lang) p ++
  note (commentTok to_lang) ++
  original_header (commentTok to_lang) from_lang ++
  pyIndent (commentTok to_lang) code

/-- A history entry, the dict built by `add_to_history`
(`src/app.py:75-81`). -/
structure HistoryEntry where
  time : String
  from_lang : String
  to_lang : String
  prompt : String
  code_preview : String
deriving DecidableEq

/-- A chat message of the Ask-AI panel (`src/app.py:339-344`). -/
structure ChatMessage where
  role : String
  content : String
deriving DecidableEq

/-- The `st.session_state` record (`src/app.py:20-35`). -/
structure AppState where
  from_lang : String
  to_lang : String
  prompt : String
  input_code : String
  output_code : String
  history : List HistoryEntry
  history_limit : Nat
  ai_open : Bool
  ai_messages : List ChatMessage
  theme : String
deriving DecidableEq

/-- The session-state defaults set by `init_session_state`
(`src/app.py:20-35`). -/
def initState : AppState :=
  { from_lang := "Python"
  , to_lang := "JavaScript"
  , prompt := ""
  , input_code := ""
  , output_code := ""
  , history := []
  , history_limit := 10
  , ai_open := false
  , ai_messages := []
  , theme := "Light" }

/-- The `code_preview` field of a history entry (`src/app.py:80`):
`(code[:120] + "…") if len(code) > 120 else code`. -/
def code_preview (code : String) : String :=
  if code.data.length > 120 then (⟨code.data.take 120⟩ : String) ++ "…" else code

/-- The entry dict built by `add_to_history` (`src/app.py:75-81`). -/
def mkHistoryEntry (now from_lang to_lang p code : String) : HistoryEntry :=
  { time := now
  , from_lang := from_lang
  , to_lang := to_lang
  , prompt := pyStrip p
  , code_preview := code_preview code }

/-- `add_to_history` (`src/app.py:74-84`): insert the new entry at the
front, then truncate the list to `history_limit` entries. -/
def add_to_history (now from_lang to_lang p code : String) (s : AppState) : AppState :=
  { s with history := (mkHistoryEntry now from_lang to_lang p code :: s.history).take s.history_limit }

/-- The history-size slider assignment in `main` (`src/app.py:206`); the
slider offers values between 3 and 30. -/
def set_history_limit (n : Nat) (s : AppState) : AppState :=
  { s with history_limit := n }

/-- The status message shown by the upload handler. -/
inductive UploadStatus where
  | appended
  | loaded
deriving DecidableEq

/-- The upload branch of `main` (`src/app.py:261-267`), after the file
content has been decoded: append to a non-blank input field after a
blank-line separator (rstripping the existing text first), otherwise
replace the field. -/
def handleUpload (s : AppState) (content : String) : AppState × UploadStatus :=
  if pyStrip s.input_code ≠ "" then
    ({ s with input_code := pyRStrip s.input_code ++ "\n\n" ++ content }, .appended)
  else
    ({ s with input_code := content }, .loaded)

/-- Whether the Convert click was rejected with a warning or performed. -/
inductive ConvertOutcome where
  | warned
  | converted
deriving DecidableEq

/-- The Convert-button branch of `main` (`src/app.py:288-304`): a blank
input is rejected with a warning and no state change; otherwise the
placeholder conversion fills `output_code` and a history entry is added. -/
def handleConvert (now : String) (s : AppState) : AppState × ConvertOutcome :=
  if pyStrip s.input_code = "" then (s, .warned)
  else
    let result := convert_code_placeholder s.from_lang s.to_lang s.prompt s.input_code
    (add_to_history now s.from_lang s.to_lang s.prompt s.input_code
      { s with output_code := result }, .converted)

/-- The four arguments of one `add_to_history` call, together with the
timestamp taken at the call. -/
structure ConvReq where
  now : String
  from_lang : String
  to_lang : String
  prompt : String
  code : String
deriving DecidableEq

/-- The history entry a request produces. -/
def entryOf (r : ConvReq) : HistoryEntry :=
  mkHistoryEntry r.now r.from_lang r.to_lang r.prompt r.code

/-- A sequence of `add_to_history` calls applied to a state. -/
def runInserts (s : AppState) (ps : List ConvReq) : AppState :=
  ps.foldl (fun st r => add_to_history r.now r.from_lang r.to_lang r.prompt r.code st) s

/-- Whether a byte is a UTF-8 continuation byte (`10xxxxxx`). -/
def isContByte (b : UInt8) : Bool := 0x80 ≤ b.toNat && b.toNat < 0xC0

/-- Strict UTF-8 decoding, as performed by Python's
`bytes.decode("utf-8")` (`src/app.py:257`): rejects truncated
sequences, stray continuation bytes, overlong encodings, surrogate code
points and code points above U+10FFFF. -/
def utf8DecodeStrict : List UInt8 → Option (List Char)
  | [] => some []
  | b :: rest =>
    let n := b.toNat
    if n < 0x80 then (utf8DecodeStrict rest).map (fun cs => Char.ofNat n :: cs)
    else if n < 0xC2 then none
    else if n < 0xE0 then
      match rest with
      | b2 :: rest2 =>
        if isContByte b2 then
          (utf8DecodeStrict rest2).map
            (fun cs => Char.ofNat ((n - 0xC0) * 0x40 + (b2.toNat - 0x80)) :: cs)
        else none
      | [] => none
    else if n < 0xF0 then
      match rest with
      | b2 :: b3 :: rest3 =>
        if isContByte b2 ∧ isContByte b3 then
          let cp := (n - 0xE0) * 0x1000 + (b2.toNat - 0x80) * 0x40 + (b3.toNat - 0x80)
          if cp < 0x800 then none
          else if 0xD800 ≤ cp ∧ cp < 0xE000 then none
          else (utf8DecodeStrict rest3).map (fun cs => Char.ofNat cp :: cs)
        else none
      | _ => none
    else if n < 0xF5 then
      match rest with
      | b2 :: b3 :: b4 :: rest4 =>
        if isContByte b2 ∧ isContByte b3 ∧ isContByte b4 then
          let cp := (n - 0xF0) * 0x40000 + (b2.toNat - 0x80) * 0x1000 +
                    (b3.toNat - 0x80) * 0x40 + (b4.toNat - 0x80)
          if cp < 0x10000 ∨ 0x10FFFF < cp then none
          else (utf8DecodeStrict rest4).map (fun cs => Char.ofNat cp :: cs)
        else none
      | _ => none
    else none

/-- Python's `bytes.decode("latin-1", errors="replace")`
(`src/app.py:259`): every byte maps to the code point of the same value,
so the replacement handler never fires and no byte can fail to decode. -/
def latin1Decode (bs : List UInt8) : List Char :=
  bs.map (fun b => Char.ofNat b.toNat)

/-- The decode policy of the upload handler (`src/app.py:256-259`):
strict UTF-8 first, `latin-1` with replacement on `UnicodeDecodeError`. -/
def decodeUploaded (bs : List UInt8) : List Char :=
  match utf8DecodeStrict bs with
  | some s => s
  | none => latin1Decode bs

/-- Modelled from the spec claim wording: the comment token the claims
associate with each recognized target language (`# ` for Python, `// `
for Java, C++ and JavaScript). -/
def specCommentTok (t : String) : String :=
  if t = "Python" then "# " else "// "

/-- Modelled from the spec claim wording: the source text with every
line, including whitespace-only ones, prefixed by the comment token. -/
def specIndentEveryLine (tok : List Char) (text : List Char) : List Char :=
  ((splitlinesKeepends text).map (fun line => tok ++ line)).flatten

/-- Boolean contiguous-substring test on lists of code points. -/
def containsSubB : List Char → List Char → Bool
  | l, sub =>
    if sub.isPrefixOf l then true
    else
      match l with
      | [] => false
      | _ :: rest => containsSubB rest sub

/-- A reachable session state used to probe the history invariant:
starting from the defaults (limit 10), four conversions are recorded and
then the history-size slider is lowered to 3. -/
def c4State : AppState :=
  set_history_limit 3
    (add_to_history "t4" "Python" "Java" "" "d"
      (add_to_history "t3" "Python" "Java" "" "c"
        (add_to_history "t2" "Python" "Java" "" "b"
          (add_to_history "t1" "Python" "Java" "" "a" initState))))

/-- The starting state of the concrete history-rollover run: defaults
with the history limit set to 3. -/
def c5Start : AppState := set_history_limit 3 initState

/-- Four concrete conversion requests, one more than the limit of
`c5Start`. -/
def c5Reqs : List ConvReq :=
  [⟨"t1", "Python", "Java", "", "a"⟩, ⟨"t2", "Python", "Java", "", "b"⟩,
   ⟨"t3", "Python", "Java", "", "c"⟩, ⟨"t4", "Python", "Java", "", "d"⟩]

/-! ## Claim theorems and supporting lemmas -/

set_option maxRecDepth 40000 in
/-- C2: the placeholder conversion on source "Python", target
"JavaScript", whitespace-only prompt "  " and code "x=1" yields exactly
the banner line, no prompt line, the comment-prefixed disclaimer, the
header line `// Original Python code below for reference:` and the line
`// x=1`. -/
theorem convert_example_python_to_javascript :
    convert_code_placeholder "Python" "JavaScript" "  " "x=1" =
      "// Conversion from Python to JavaScript completed!\n// This is a placeholder. Replace with real conversion output.\n\n// Original Python code below for reference:\n// x=1" ∧
    ("// Conversion from Python to JavaScript completed!\n".data).isPrefixOf
      (convert_code_placeholder "Python" "JavaScript" "  " "x=1").data = true ∧
    containsSubB (convert_code_placeholder "Python" "JavaScript" "  " "x=1").data
      ("Prompt:".data) = false ∧
    containsSubB (convert_code_placeholder "Python" "JavaScript" "  " "x=1").data
      ("// This is a placeholder. Replace with real conversion output.\n".data) = true ∧
    containsSubB (convert_code_placeholder "Python" "JavaScript" "  " "x=1").data
      ("// Original Python code below for reference:\n// x=1".data) = true := by
  refine ⟨by decide, by decide, by decide, by decide, by decide⟩

/-- C7: a Convert click with a blank (empty or whitespace-only) input
code is rejected with a warning and leaves the whole session state
unchanged. -/
theorem convert_rejects_blank_input (now : String) (s : AppState)
    (h : pyStrip s.input_code = "") :
    handleConvert now s = (s, ConvertOutcome.warned) := by
  simp [handleConvert, h]

/-- Witness for `convert_rejects_blank_input` at the default state. -/
theorem convert_rejects_blank_input_witness :
    handleConvert "2024-01-01 00:00:00" initState = (initState, ConvertOutcome.warned) :=
  convert_rejects_blank_input "2024-01-01 00:00:00" initState (by decide)

/-- C8: file bytes are decoded by strict UTF-8 first; on failure the
handler falls back to latin-1 with replacement, which decodes every
byte, so the procedure never fails. -/
theorem decode_utf8_with_latin1_fallback (bs : List UInt8) :
    (∀ cs, utf8DecodeStrict bs = some cs → decodeUploaded bs = cs) ∧
    (utf8DecodeStrict bs = none → decodeUploaded bs = latin1Decode bs) ∧
    (latin1Decode bs).length = bs.length := by
  refine ⟨?_, ?_, by simp [latin1Decode]⟩
  · intro cs h
    simp [decodeUploaded, h]
  · intro h
    simp [decodeUploaded, h]

/-- Witness for `decode_utf8_with_latin1_fallback` on the byte 0xFF,
which is not valid UTF-8. -/
theorem decode_utf8_with_latin1_fallback_witness :
    decodeUploaded [255] = latin1Decode [255] ∧
    (latin1Decode [255]).length = [(255 : UInt8)].length :=
  ⟨(decode_utf8_with_latin1_fallback [255]).2.1 (by decide),
   (decode_utf8_with_latin1_fallback [255]).2.2⟩

/-- C6: the history preview is the first 120 characters plus an
ellipsis when the code has more than 120 characters, and the unmarked
full code otherwise. -/
theorem history_preview_truncation (code : String) :
    (code.data.length > 120 →
      code_preview code = (⟨code.data.take 120⟩ : String) ++ "…" ∧
      (code.data.take 120).length = 120) ∧
    (code.data.length ≤ 120 → code_preview code = code) := by
  constructor
  · intro h
    refine ⟨?_, ?_⟩
    · simp only [code_preview]
      rw [if_pos h]
    · rw [List.length_take]
      exact Nat.min_eq_left (by omega)
  · intro h
    simp only [code_preview]
    rw [if_neg (by omega)]

/-- Witness for `history_preview_truncation`: a 121-character input is
cut to 120 characters plus the marker, a 120-character input is kept
whole. -/
theorem history_preview_truncation_witness :
    code_preview ⟨List.replicate 121 'a'⟩ = (⟨List.replicate 120 'a'⟩ : String) ++ "…" ∧
    code_preview ⟨List.replicate 120 'a'⟩ = ⟨List.replicate 120 'a'⟩ := by
  constructor
  · exact ((history_preview_truncation ⟨List.replicate 121 'a'⟩).1 (by decide)).1.trans (by decide)
  · exact (history_preview_truncation ⟨List.replicate 120 'a'⟩).2 (by decide)

/-- C3 (amended): uploading into a blank input field replaces it with
the decoded content; uploading into a non-blank field appends the
decoded content after a blank line, with the existing text first
stripped of trailing whitespace. -/
theorem upload_replace_or_append (s : AppState) (content : String) :
    (pyStrip s.input_code = "" →
      (handleUpload s content).1.input_code = content ∧
      (handleUpload s content).2 = UploadStatus.loaded) ∧
    (pyStrip s.input_code ≠ "" →
      (handleUpload s content).1.input_code = pyRStrip s.input_code ++ "\n\n" ++ content ∧
      (handleUpload s content).2 = UploadStatus.appended) := by
  constructor
  · intro h
    simp [handleUpload, h]
  · intro h
    simp [handleUpload, h]

/-- Witness for `upload_replace_or_append`: a blank field is replaced
outright, a non-blank field gets the separator after rstripping. -/
theorem upload_replace_or_append_witness :
    (handleUpload initState "y").1.input_code = "y" ∧
    (handleUpload { initState with input_code := "x " } "y").1.input_code =
      pyRStrip "x " ++ "\n\n" ++ "y" := by
  refine ⟨((upload_replace_or_append initState "y").1 (by decide)).1, ?_⟩
  exact ((upload_replace_or_append { initState with input_code := "x " } "y").2 (by decide)).1

/-- Counterexample to C3 as stated: with existing input "x " (trailing
space) and decoded content "y", the code yields "x\n\ny", not the
claimed existing + "\n\n" + new = "x \n\ny". -/
theorem upload_append_counterexample :
    ¬ ((handleUpload { initState with input_code := "x " } "y").1.input_code =
        ({ initState with input_code := "x " } : AppState).input_code ++ "\n\n" ++ "y") := by
  decide

/-- C4 (amended): every insert truncates the history to the limit in
effect at that insert, and changing the limit alone leaves the history
list untouched (so a lowered limit is enforced only at the next insert). -/
theorem history_limit_on_insert (now f t p c : String) (n : Nat) (s : AppState) :
    (add_to_history now f t p c s).history.length ≤ s.history_limit ∧
    (add_to_history now f t p c s).history_limit = s.history_limit ∧
    (set_history_limit n s).history = s.history := by
  refine ⟨?_, rfl, rfl⟩
  exact List.length_take_le s.history_limit (mkHistoryEntry now f t p c :: s.history)

/-- Counterexample to C4 as stated: after four inserts at the default
limit 10 and then lowering the slider to 3, the history still holds 4
entries, so the length exceeds the configured limit. -/
theorem history_limit_violated_after_lowering :
    ¬ (c4State.history.length ≤ c4State.history_limit) := by
  decide

/-- C1 (amended): for every recognized target language the conversion
output ends with the source text re-emitted line by line, each
non-blank line prefixed by the target's comment token ("# " for Python,
"// " for Java, C++ and JavaScript) and whitespace-only lines left
unprefixed. -/
theorem convert_embeds_commented_code (f t p c : String)
    (h : t = "Python" ∨ t = "Java" ∨ t = "C++" ∨ t = "JavaScript") :
    ∃ head, convert_code_placeholder f t p c = head ++ pyIndent (specCommentTok t) c := by
  rcases h with h | h | h | h <;> subst h <;> exact ⟨_, rfl⟩

/-- Witness for `convert_embeds_commented_code` with target JavaScript. -/
theorem convert_embeds_commented_code_witness :
    ∃ head, convert_code_placeholder "Python" "JavaScript" "" "a" =
      head ++ pyIndent (specCommentTok "JavaScript") "a" :=
  convert_embeds_commented_code "Python" "JavaScript" "" "a" (Or.inr (Or.inr (Or.inr rfl)))

/-- Counterexample to C1 as stated: for the code "a\n \nb" (whose middle
line is whitespace-only) the output does not contain the source with
every line comment-prefixed, because `textwrap.indent` skips
whitespace-only lines. -/
theorem convert_not_every_line_prefixed :
    containsSubB (convert_code_placeholder "Python" "JavaScript" "" "a\n \nb").data
      (specIndentEveryLine (specCommentTok "JavaScript").data "a\n \nb".data) = false := by
  decide

/-- C9: the completion banner, the first line of the output, always
starts with "//" whatever the target language; with target Python every
other component (prompt line, disclaimer, header and code lines) is
built with the "# " comment token. -/
theorem convert_banner_always_slash_comment (f t p c : String) :
    (convert_code_placeholder f t p c).data.take 2 = ['/', '/'] ∧
    (t = "Python" →
      convert_code_placeholder f t p c =
        banner f t ++ prompt_block "# " p ++ note "# " ++
        original_header "# " f ++ pyIndent "# " c) := by
  constructor
  · rfl
  · intro h
    subst h
    rfl

/-- Witness for `convert_banner_always_slash_comment` with target
Python: the banner keeps "//" while the body uses "# ". -/
theorem convert_banner_always_slash_comment_witness :
    convert_code_placeholder "Java" "Python" "hi" "x" =
      banner "Java" "Python" ++ prompt_block "# " "hi" ++ note "# " ++
      original_header "# " "Java" ++ pyIndent "# " "x" :=
  (convert_banner_always_slash_comment "Java" "Python" "hi" "x").2 rfl

/-- Concatenating the kept-ends lines produced by the splitter, with any
partial line `acc` (stored reversed) in front, recovers the input. -/
theorem splitlinesAux_flatten (fuel : Nat) :
    ∀ l : List Char, l.length ≤ fuel → ∀ acc : List Char,
      (splitlinesAux l acc).flatten = acc.reverse ++ l := by
  induction fuel with
  | zero =>
    intro l hl acc
    have hnil : l = [] := List.length_eq_zero.mp (Nat.le_zero.mp hl)
    subst hnil
    cases acc <;> simp [splitlinesAux]
  | succ n ih =>
    intro l hl acc
    match l with
    | [] => cases acc <;> simp [splitlinesAux]
    | c :: rest =>
      rw [splitlinesAux.eq_def]
      simp only []
      by_cases hc : c = '\r'
      · subst hc
        rw [if_pos rfl]
        match rest with
        | [] => simp
        | c2 :: rest2 =>
          simp only []
          by_cases hc2 : c2 = '\n'
          · subst hc2
            rw [if_pos rfl]
            have hlen : rest2.length ≤ n := by
              simp only [List.length_cons] at hl
              omega
            simp [ih rest2 hlen []]
          · rw [if_neg hc2]
            have hlen : (c2 :: rest2).length ≤ n := by
              simp only [List.length_cons] at hl ⊢
              omega
            simp [ih (c2 :: rest2) hlen []]
      · rw [if_neg hc]
        by_cases hb : isPyLineBreak c
        · rw [if_pos hb]
          have hlen : rest.length ≤ n := by
            simp only [List.length_cons] at hl
            omega
          simp [ih rest hlen []]
        · rw [if_neg hb]
          have hlen : rest.length ≤ n := by
            simp only [List.length_cons] at hl
            omega
          simp [ih rest hlen (c :: acc)]

/-- The kept-ends lines of a text concatenate back to the text. -/
theorem splitlines_flatten (l : List Char) : (splitlinesKeepends l).flatten = l := by
  simpa [splitlinesKeepends] using splitlinesAux_flatten l.length l le_rfl []

/-- C10: the conversion output ends with the input re-emitted line by
line, where a line that is empty or whitespace-only is emitted without
the comment token while every other line receives it, and those lines
concatenate back to the input text exactly. -/
theorem whitespace_lines_unprefixed (f t p c : String) :
    ∃ head,
      convert_code_placeholder f t p c =
        head ++ (⟨((splitlinesKeepends c.data).map (emitLine (commentTok t).data)).flatten⟩ : String) ∧
      (∀ line ∈ splitlinesKeepends c.data,
        (pyStripList line).isEmpty = true → emitLine (commentTok t).data line = line) ∧
      (∀ line ∈ splitlinesKeepends c.data,
        (pyStripList line).isEmpty = false →
          emitLine (commentTok t).data line = (commentTok t).data ++ line) ∧
      (splitlinesKeepends c.data).flatten = c.data := by
  refine ⟨_, rfl, ?_, ?_, splitlines_flatten c.data⟩
  · intro line _ h
    simp [emitLine, h]
  · intro line _ h
    simp [emitLine, h]

/-- Witness for `whitespace_lines_unprefixed` on the code "a\n \nb": the
whitespace-only middle line keeps no prefix, the first line is prefixed. -/
theorem whitespace_lines_unprefixed_witness :
    emitLine ("// ".data) (" \n".data) = " \n".data ∧
    emitLine ("// ".data) ("a\n".data) = "// ".data ++ "a\n".data := by
  obtain ⟨head, h1, h2, h3, h4⟩ := whitespace_lines_unprefixed "Python" "JavaScript" "" "a\n \nb"
  exact ⟨h2 (" \n".data) (by decide) (by decide), h3 ("a\n".data) (by decide) (by decide)⟩

/-- Truncating after appending an already-truncated list is the same as
truncating the whole concatenation. -/
theorem takeN_absorb {α : Type} (N : Nat) (A B : List α) :
    (A ++ B.take N).take N = (A ++ B).take N := by
  rw [List.take_append_eq_append_take, List.take_append_eq_append_take, List.take_take]
  congr 2
  exact Nat.min_eq_left (Nat.sub_le N A.length)

/-- Truncating a concatenation whose left part has exactly the allowed
length keeps the left part exactly. -/
theorem take_length_left {α : Type} (N : Nat) (A B : List α) (h : A.length = N) :
    (A ++ B).take N = A := by
  rw [List.take_append_eq_append_take, h, Nat.sub_self, List.take_zero, List.append_nil,
    ← h, List.take_length]

/-- Folding front-insert-then-truncate over a list of new entries,
starting from an already-truncated list, yields the truncation of all
entries (reversed) followed by the old ones. -/
theorem fold_insert_take {α : Type} (N : Nat) (es : List α) :
    ∀ l0 : List α, l0.take N = l0 →
      es.foldl (fun h e => (e :: h).take N) l0 = (es.reverse ++ l0).take N := by
  induction es with
  | nil =>
    intro l0 h0
    simpa using h0.symm
  | cons e es ih =>
    intro l0 h0
    rw [List.foldl_cons]
    rw [ih ((e :: l0).take N) (by rw [List.take_take, Nat.min_self])]
    rw [takeN_absorb]
    simp [List.append_assoc]

/-- `add_to_history` never changes the configured limit, so a run of
inserts keeps it. -/
theorem runInserts_history_limit (ps : List ConvReq) :
    ∀ s : AppState, (runInserts s ps).history_limit = s.history_limit := by
  induction ps with
  | nil => intro s; rfl
  | cons r ps ih =>
    intro s
    exact ih (add_to_history r.now r.from_lang r.to_lang r.prompt r.code s)

/-- The history produced by a run of inserts is the corresponding fold
of front-insert-then-truncate over the produced entries. -/
theorem runInserts_history (ps : List ConvReq) :
    ∀ s : AppState,
      (runInserts s ps).history =
        (ps.map entryOf).foldl (fun h e => (e :: h).take s.history_limit) s.history := by
  induction ps with
  | nil => intro s; rfl
  | cons r ps ih =>
    intro s
    simp only [runInserts, List.foldl_cons, List.map_cons]
    have h := ih (add_to_history r.now r.from_lang r.to_lang r.prompt r.code s)
    simp only [runInserts] at h
    rw [h]
    rfl

/-- C5: inserting N+1 entries while the limit is N leaves exactly the N
most recent entries, newest first. -/
theorem history_rollover (N : Nat) (s : AppState) (ps : List ConvReq)
    (hN : s.history_limit = N) (hlen : ps.length = N + 1) :
    (runInserts s ps).history = ((ps.map entryOf).reverse).take N ∧
    (runInserts s ps).history.length = N := by
  have key : (runInserts s ps).history = ((ps.map entryOf).reverse).take N := by
    cases ps with
    | nil =>
      rw [List.length_nil] at hlen
      omega
    | cons r rest =>
      have hrest : rest.length = N := by
        rw [List.length_cons] at hlen
        omega
      rw [runInserts_history]
      simp only [List.map_cons, List.foldl_cons, hN]
      rw [fold_insert_take N (rest.map entryOf) ((entryOf r :: s.history).take N)
        (by rw [List.take_take, Nat.min_self])]
      rw [takeN_absorb]
      have hA : ((rest.map entryOf).reverse).length = N := by
        simp [hrest]
      rw [take_length_left N _ _ hA]
      rw [List.reverse_cons, take_length_left N _ _ hA]
  refine ⟨key, ?_⟩
  rw [key, List.length_take]
  simp [hlen]

/-- Witness for `history_rollover` with limit 3 and four inserts. -/
theorem history_rollover_witness :
    (runInserts c5Start c5Reqs).history = ((c5Reqs.map entryOf).reverse).take 3 ∧
    (runInserts c5Start c5Reqs).history.length = 3 :=
  history_rollover 3 c5Start c5Reqs rfl rfl

end Codeswitch
